import Mathlib

/-!
Shallow embedding of the authenticated media-retrieval and streaming
decryption pipeline of `haberlea_deezer` (file `deezer_api.py`), together
with theorems settling the frozen claims about it.

Byte streams are modelled as `List Nat` (each element a byte value).
The Blowfish-CBC library primitive (`Cryptodome`) is external to the
repository and is modelled as an abstract block transform `dec`; the
MD5 library primitive is implemented in full so key derivation is
executable.  Python exceptions are modelled as an explicit error type:
an uncaught `IndexError`/`KeyError` (a crash) is distinct from the
module's own `ModuleAPIError` / `ModuleAuthError` / `ValueError`.
-/

namespace Haberlea

/-- Errors a modelled operation can surface.  `moduleApiError` and
`moduleAuthError` model the exceptions raised deliberately by the module;
`valueError` models the `ValueError` raised by the chunk-size check;
`indexError` models an uncaught Python `IndexError` (a crash). -/
inductive PyError where
  | moduleApiError (code : Nat) (message : String) (endpoint : String)
  | moduleAuthError
  | valueError (message : String)
  | indexError
deriving DecidableEq, Repr

/-- True exactly on a successful (`ok`) result; models "no exception raised". -/
def exceptIsOk : Except PyError α → Bool
  | .ok _ => true
  | .error _ => false

/-- True exactly when the result is a raised `ModuleAPIError`. -/
def isModuleApiError : Except PyError α → Bool
  | .error (.moduleApiError _ _ _) => true
  | _ => false

/-- True exactly when the result is a raised `ModuleAuthError`. -/
def isModuleAuthError : Except PyError α → Bool
  | .error .moduleAuthError => true
  | _ => false

/-! ## Streaming chunk processor (`_create_blowfish_decryptor.process_chunk`) -/

/-- The fixed 8-byte initialisation vector `b"\x00\x01\x02\x03\x04\x05\x06\x07"`
passed to every Blowfish-CBC block decryption. -/
def ivBytes : List Nat := [0, 1, 2, 3, 4, 5, 6, 7]

/-- Fuel-indexed body of `process_chunk`'s loop; the fuel (an upper bound on
the number of remaining windows, decremented once per window) only makes the
recursion structural so the function reduces in the kernel. -/
def processBlocksAux (dec : List Nat → List Nat) :
    Nat → Int → List Nat → List Nat
  | 0, _, _ => []
  | _, _, [] => []
  | fuel + 1, base, x :: xs =>
    let b := (x :: xs).take 2048
    let b2 := if base % 3 = 0 ∧ b.length = 2048 then dec b else b
    b2 ++ processBlocksAux dec fuel (base + 1) (xs.drop 2047)

/-- The loop body of `process_chunk`: walk the chunk in 2048-byte windows,
applying the block transform `dec` (the Blowfish-CBC decryption, abstract
here) to each full 2048-byte window whose absolute block index
(`base` plus the window position) is divisible by 3, passing every other
window through unchanged, and concatenating the results in order. -/
def processBlocks (dec : List Nat → List Nat) (base : Int) (l : List Nat) :
    List Nat :=
  processBlocksAux dec l.length base l

/-- The chunk processor returned by `_create_blowfish_decryptor`:
`process_chunk(chunk, chunk_index)` starts at absolute block index
`chunk_index * blocks_per_chunk`. -/
def processChunk (dec : List Nat → List Nat) (blocksPerChunk : Int)
    (chunk : List Nat) (chunkIndex : Int) : List Nat :=
  processBlocks dec (chunkIndex * blocksPerChunk) chunk

/-- The setup part of `_create_blowfish_decryptor`: validate the configured
chunk size (`raise ValueError` when `chunk_size % 2048 != 0`, Python `%` on
ints being `Int.emod`) and otherwise return the chunk processor with
`blocks_per_chunk = chunk_size // 2048`. -/
def createBlowfishDecryptor (dec : List Nat → List Nat) (chunkSize : Int) :
    Except PyError (List Nat → Int → List Nat) :=
  if chunkSize % 2048 ≠ 0 then
    .error (.valueError "chunk_size must be a multiple of 2048")
  else
    .ok (processChunk dec (chunkSize / 2048))

/-- Fuel-indexed list splitter (fuel only makes the recursion structural). -/
def chunksOfAux : Nat → Nat → List α → List (List α)
  | 0, _, _ => []
  | _, _, [] => []
  | fuel + 1, n, x :: xs => (x :: xs).take n :: chunksOfAux fuel n (xs.drop (n - 1))

/-- Split a list into consecutive pieces of `n` elements (final piece may be
shorter); used to express how the transport layer segments a byte stream
into chunks, and how `process_chunk` slices a chunk into windows. -/
def chunksOf (n : Nat) (l : List α) : List (List α) :=
  chunksOfAux l.length n l

/-- Map a function over a list together with each element's position. -/
def mapWithIndex (f : Nat → α → β) : List α → List β
  | [] => []
  | a :: l => f 0 a :: mapWithIndex (fun k => f (k + 1)) l

/-! ## MD5 (the `hashlib.md5` primitive used by `get_blowfish_key`),
implemented in full per RFC 1321 so key derivation is executable. -/

/-- The 64 per-round MD5 additive constants, `floor(2^32 * abs(sin(i + 1)))`. -/
def md5K : List Nat :=
  [0xd76aa478, 0xe8c7b756, 0x242070db, 0xc1bdceee,
   0xf57c0faf, 0x4787c62a, 0xa8304613, 0xfd469501,
   0x698098d8, 0x8b44f7af, 0xffff5bb1, 0x895cd7be,
   0x6b901122, 0xfd987193, 0xa679438e, 0x49b40821,
   0xf61e2562, 0xc040b340, 0x265e5a51, 0xe9b6c7aa,
   0xd62f105d, 0x02441453, 0xd8a1e681, 0xe7d3fbc8,
   0x21e1cde6, 0xc33707d6, 0xf4d50d87, 0x455a14ed,
   0xa9e3e905, 0xfcefa3f8, 0x676f02d9, 0x8d2a4c8a,
   0xfffa3942, 0x8771f681, 0x6d9d6122, 0xfde5380c,
   0xa4beea44, 0x4bdecfa9, 0xf6bb4b60, 0xbebfbc70,
   0x289b7ec6, 0xeaa127fa, 0xd4ef3085, 0x04881d05,
   0xd9d4d039, 0xe6db99e5, 0x1fa27cf8, 0xc4ac5665,
   0xf4292244, 0x432aff97, 0xab9423a7, 0xfc93a039,
   0x655b59c3, 0x8f0ccc92, 0xffeff47d, 0x85845dd1,
   0x6fa87e4f, 0xfe2ce6e0, 0xa3014314, 0x4e0811a1,
   0xf7537e82, 0xbd3af235, 0x2ad7d2bb, 0xeb86d391]

/-- The 64 per-round MD5 left-rotation amounts. -/
def md5S : List Nat :=
  [7, 12, 17, 22, 7, 12, 17, 22, 7, 12, 17, 22, 7, 12, 17, 22,
   5, 9, 14, 20, 5, 9, 14, 20, 5, 9, 14, 20, 5, 9, 14, 20,
   4, 11, 16, 23, 4, 11, 16, 23, 4, 11, 16, 23, 4, 11, 16, 23,
   6, 10, 15, 21, 6, 10, 15, 21, 6, 10, 15, 21, 6, 10, 15, 21]

/-- Rotate a 32-bit word left by `n` bits. -/
def leftrot (x n : Nat) : Nat :=
  ((x <<< n) ||| (x >>> (32 - n))) % 4294967296

/-- The `k` little-endian bytes of `x`. -/
def toLEBytes (k x : Nat) : List Nat :=
  (List.range k).map fun i => (x >>> (8 * i)) % 256

/-- Read a little-endian byte list as a number. -/
def fromLEBytes : List Nat → Nat
  | [] => 0
  | b :: bs => b + 256 * fromLEBytes bs

/-- MD5 padding: append `0x80`, zero bytes up to 56 mod 64, then the
original bit length as 8 little-endian bytes (mod 2^64). -/
def md5pad (msg : List Nat) : List Nat :=
  msg ++ 0x80 :: List.replicate ((119 - msg.length % 64) % 64) 0
      ++ toLEBytes 8 ((msg.length * 8) % 18446744073709551616)

/-- One of the 64 MD5 rounds, acting on the state `(a, b, c, d)`;
`M g` is message word `g` of the current 64-byte block. -/
def md5round (M : Nat → Nat) (st : Nat × Nat × Nat × Nat) (i : Nat) :
    Nat × Nat × Nat × Nat :=
  let a := st.1
  let b := st.2.1
  let c := st.2.2.1
  let d := st.2.2.2
  let fg : Nat × Nat :=
    if i < 16 then ((b &&& c) ||| ((b ^^^ 4294967295) &&& d), i)
    else if i < 32 then ((d &&& b) ||| ((d ^^^ 4294967295) &&& c), (5 * i + 1) % 16)
    else if i < 48 then ((b ^^^ c) ^^^ d, (3 * i + 5) % 16)
    else (c ^^^ (b ||| (d ^^^ 4294967295)), (7 * i) % 16)
  let f2 := (fg.1 + a + md5K.getD i 0 + M fg.2) % 4294967296
  (d, (b + leftrot f2 (md5S.getD i 0)) % 4294967296, b, c)

/-- Absorb one 64-byte block into the MD5 state. -/
def md5block (st : Nat × Nat × Nat × Nat) (blockBytes : List Nat) :
    Nat × Nat × Nat × Nat :=
  let M := fun g => fromLEBytes ((blockBytes.drop (4 * g)).take 4)
  let r := (List.range 64).foldl (md5round M) st
  ((st.1 + r.1) % 4294967296, (st.2.1 + r.2.1) % 4294967296,
   (st.2.2.1 + r.2.2.1) % 4294967296, (st.2.2.2 + r.2.2.2) % 4294967296)

/-- The final MD5 state over a whole message. -/
def md5words (msg : List Nat) : Nat × Nat × Nat × Nat :=
  (chunksOf 64 (md5pad msg)).foldl md5block
    (1732584193, 4023233417, 2562383102, 271733878)

/-- The 16-byte MD5 digest of a byte message. -/
def md5bytes (msg : List Nat) : List Nat :=
  toLEBytes 4 (md5words msg).1 ++ toLEBytes 4 (md5words msg).2.1 ++
  toLEBytes 4 (md5words msg).2.2.1 ++ toLEBytes 4 (md5words msg).2.2.2

/-- ASCII code of the lowercase hexadecimal digit for `n < 16`. -/
def hexCharCode (n : Nat) : Nat :=
  if n < 10 then 48 + n else 87 + n

/-- ASCII bytes of the lowercase hexadecimal rendering of a byte list
(two hex digits per byte), i.e. Python's `hexdigest().encode("ascii")`. -/
def toHexBytes : List Nat → List Nat
  | [] => []
  | b :: bs => hexCharCode (b / 16) :: hexCharCode (b % 16) :: toHexBytes bs

/-- The key derivation `get_blowfish_key`: the lowercase hex MD5 digest of
the track id's encoding, then byte `i` of the key is
`digest[i] XOR digest[i + 16] XOR bf_secret[i]` for `i` in `0..15`. -/
def getBlowfishKey (bfSecret trackId : List Nat) : List Nat :=
  let md5hash := toHexBytes (md5bytes trackId)
  (List.range 16).map fun i =>
    (md5hash.getD i 0) ^^^ (md5hash.getD (i + 16) 0) ^^^ (bfSecret.getD i 0)

/-! ## Session state and gateway calls (`DeezerApi`)

The network is a parameter: a gateway response is a function of the method,
the `api_token` sent, and the payload; responses are typed records holding
exactly the fields the client reads.  `time()` during one outer call is
modelled as a single instant `now` (the code compares the same wall clock
quantities).  The random `cid` request parameter influences nothing the
client reads and is not modelled. -/

/-- The payload fields of gateway requests that the modelled calls use:
`sng_id` and `array_default`. -/
structure GwPayload where
  sngId : Option String := none
  arrayDefault : List String := []
deriving DecidableEq, Repr

/-- The `USER.OPTIONS` fields read by the client. -/
structure UserOptions where
  licenseToken : String
  webHq : Bool
  webLossless : Bool
deriving DecidableEq, Repr

/-- The `results` fields of gateway responses that the modelled calls read
(`checkForm`, `COUNTRY`, `USER.OPTIONS`, the language setting,
`USER.USER_ID`, `TRACK_TOKEN`). -/
structure GwResults where
  checkForm : String
  country : String
  userOptions : UserOptions
  language : String
  userId : String
  trackToken : String
deriving DecidableEq, Repr

/-- A gateway response: an optional error envelope (its first key/value
pair) and the results payload. -/
structure GwResponse where
  error : Option (String × String)
  results : GwResults
deriving DecidableEq, Repr

/-- A network request issued by the client, as recorded in call traces. -/
inductive Req where
  | gw (method : String) (apiToken : String) (payload : GwPayload)
  | media (licenseToken : String) (trackToken : String) (format : String)
deriving DecidableEq, Repr

/-- The mutable fields of `DeezerApi` touched by the modelled operations,
plus the `arl` cookie stored in the session's cookie jar. -/
structure DzState where
  apiToken : String
  country : String
  licenseToken : String
  language : String
  renewTimestamp : Int
  availableFormats : List String
  arl : String
  cookieArl : Option String
deriving DecidableEq, Repr

/-- The gateway network: method, `api_token` sent, payload → response. -/
abbrev Net := String → String → GwPayload → GwResponse

/-- One source of the media-negotiation response. -/
structure MediaSource where
  url : String
deriving DecidableEq, Repr

/-- One format entry (`media[i]`) of the media-negotiation response. -/
structure MediaFormat where
  sources : List MediaSource
deriving DecidableEq, Repr

/-- One track entry (`data[i]`) of the media-negotiation response. -/
structure MediaEntry where
  media : List MediaFormat
deriving DecidableEq, Repr

/-- The media-negotiation response body. -/
structure MediaResp where
  data : List MediaEntry
deriving DecidableEq, Repr

/-- The media endpoint network: license token, track token, format →
response. -/
abbrev MediaNet := String → String → String → MediaResp

/-- The two authentication-bootstrap methods of `_gw_api_call` that always
send an empty token and are exempt from auto-relogin. -/
def authMethods : List String := ["deezer.getUserData", "user.getArl"]

/-- The `api_token` value `_gw_api_call` sends for a method. -/
def gwToken (st : DzState) (method : String) : String :=
  if method ∈ authMethods then "" else st.apiToken

/-- The available-format list computed from the entitlement flags:
`MP3_128` always, then `MP3_320` for `web_hq`, then `FLAC` for
`web_lossless`. -/
def formatsOf (opts : UserOptions) : List String :=
  ["MP3_128"] ++ (if opts.webHq then ["MP3_320"] else []) ++
    (if opts.webLossless then ["FLAC"] else [])

/-- The body of `_gw_api_call` after the auto-relogin check: send the
request, raise `ModuleAPIError` on an error envelope, and update the
session fields when (and only when) the method is `deezer.getUserData`.
Returns the new state, the trace of requests issued, and the result. -/
def gwCallBody (net : Net) (now : Int) (st : DzState) (method : String)
    (payload : GwPayload) : DzState × List Req × Except PyError GwResults :=
  match (net method (gwToken st method) payload).error with
  | some e =>
    (st, [Req.gw method (gwToken st method) payload],
      .error (.moduleApiError 400 (e.1 ++ ": " ++ e.2) method))
  | none =>
    if method = "deezer.getUserData" then
      ({ st with
          apiToken := (net method (gwToken st method) payload).results.checkForm,
          country := (net method (gwToken st method) payload).results.country,
          licenseToken :=
            (net method (gwToken st method) payload).results.userOptions.licenseToken,
          renewTimestamp := now,
          language := (net method (gwToken st method) payload).results.language,
          availableFormats :=
            formatsOf (net method (gwToken st method) payload).results.userOptions },
        [Req.gw method (gwToken st method) payload],
        .ok (net method (gwToken st method) payload).results)
    else
      (st, [Req.gw method (gwToken st method) payload],
        .ok (net method (gwToken st method) payload).results)

/-- `_gw_api_call`: when the token is empty, a stored ARL exists and the
method is not an authentication-bootstrap method, first perform one
`deezer.getUserData` bootstrap (which, being a bootstrap method itself,
recurses no further), then proceed with the requested method. -/
def gwApiCall (net : Net) (now : Int) (st : DzState) (method : String)
    (payload : GwPayload) : DzState × List Req × Except PyError GwResults :=
  if st.apiToken = "" ∧ st.arl ≠ "" ∧ method ∉ authMethods then
    match gwCallBody net now st "deezer.getUserData" {} with
    | (st1, tr1, .error e) => (st1, tr1, .error e)
    | (st1, tr1, .ok _) =>
      match gwCallBody net now st1 method payload with
      | (st2, tr2, r) => (st2, tr1 ++ tr2, r)
  else gwCallBody net now st method payload

/-- `login_via_arl`: store the ARL and its cookie, bootstrap via
`deezer.getUserData`, and on an empty `USER.USER_ID` clear the cookie jar
and the stored ARL and raise `ModuleAuthError`. -/
def loginViaArl (net : Net) (now : Int) (st : DzState) (arl : String) :
    DzState × List Req × Except PyError GwResults :=
  match gwApiCall net now { st with arl := arl, cookieArl := some arl }
      "deezer.getUserData" {} with
  | (st2, tr, .error e) => (st2, tr, .error e)
  | (st2, tr, .ok r) =>
    if r.userId = "" then
      ({ st2 with cookieArl := none, arl := "" }, tr, .error .moduleAuthError)
    else (st2, tr, .ok r)

/-- The payload of the per-track token refresh: `song.getData` scoped to
`array_default = ["TRACK_TOKEN"]`. -/
def songTokenPayload (trackId : String) : GwPayload :=
  { sngId := some trackId, arrayDefault := ["TRACK_TOKEN"] }

/-- Navigation `data[0].media[0].sources[0].url` of the media-negotiation
response; each subscript of an empty list raises an uncaught Python
`IndexError`. -/
def extractMediaUrl (resp : MediaResp) : Except PyError String :=
  match resp.data with
  | [] => .error .indexError
  | e :: _ =>
    match e.media with
    | [] => .error .indexError
    | m :: _ =>
      match m.sources with
      | [] => .error .indexError
      | s :: _ => .ok s.url

/-- The media-negotiation step of `get_track_url`: POST with the current
license token, the track token and the format, then extract the URL. -/
def mediaStep (mediaNet : MediaNet) (st : DzState) (tr : List Req)
    (trackToken fmt : String) : DzState × List Req × Except PyError String :=
  (st, tr ++ [Req.media st.licenseToken trackToken fmt],
    extractMediaUrl (mediaNet st.licenseToken trackToken fmt))

/-- The per-track-token step of `get_track_url`: when `now` is at or past
the supplied expiry, fetch a fresh token via `song.getData` scoped to
`TRACK_TOKEN` and use it in place of the supplied one. -/
def tokenStep (net : Net) (mediaNet : MediaNet) (now : Int) (st : DzState)
    (tr : List Req) (trackId trackToken : String) (expiry : Int)
    (fmt : String) : DzState × List Req × Except PyError String :=
  if expiry ≤ now then
    match gwApiCall net now st "song.getData" (songTokenPayload trackId) with
    | (st1, tr1, .error e) => (st1, tr ++ tr1, .error e)
    | (st1, tr1, .ok r) => mediaStep mediaNet st1 (tr ++ tr1) r.trackToken fmt
  else mediaStep mediaNet st tr trackToken fmt

/-- `get_track_url`: renew the session (one `deezer.getUserData` bootstrap)
when the license token is at least 3600 seconds old, then renew the
per-track token if expired, then negotiate the media URL. -/
def getTrackUrl (net : Net) (mediaNet : MediaNet) (now : Int) (st : DzState)
    (trackId trackToken : String) (expiry : Int) (fmt : String) :
    DzState × List Req × Except PyError String :=
  if 3600 ≤ now - st.renewTimestamp then
    match gwApiCall net now st "deezer.getUserData" {} with
    | (st1, tr1, .error e) => (st1, tr1, .error e)
    | (st1, tr1, .ok _) =>
      tokenStep net mediaNet now st1 tr1 trackId trackToken expiry fmt
  else tokenStep net mediaNet now st [] trackId trackToken expiry fmt

/-- Is a traced request a `deezer.getUserData` gateway call (a session
bootstrap)? -/
def isBootstrapReq : Req → Bool
  | .gw m _ _ => m = "deezer.getUserData"
  | .media _ _ _ => false

/-- Is a traced request a `song.getData` gateway call? -/
def isSongDataReq : Req → Bool
  | .gw m _ _ => m = "song.getData"
  | .media _ _ _ => false

/-! Concrete fixtures used by witnesses and counterexamples. -/

/-- A gateway network whose every response succeeds, with
`checkForm = "c"`, country `"FR"`, license token `"L2"`, `web_hq` set,
`web_lossless` unset, language `"fr"`, user id `"u"`, track token `"tt"`. -/
def sampleNet : Net := fun _ _ _ =>
  ⟨none, ⟨"c", "FR", ⟨"L2", true, false⟩, "fr", "u", "tt"⟩⟩

/-- A gateway network whose every response succeeds but reports an empty
`checkForm` token and an empty user id. -/
def emptyTokenNet : Net := fun _ _ _ =>
  ⟨none, ⟨"", "FR", ⟨"L2", false, false⟩, "fr", "", "tt"⟩⟩

/-- An authenticated sample session state (token `"t"`, country `"US"`,
license token `"L"`, language `"en"`, issue time 0, base formats,
ARL `"a"` with its cookie). -/
def sampleState : DzState :=
  ⟨"t", "US", "L", "en", 0, ["MP3_128"], "a", some "a"⟩

/-- A logged-out session state (empty token) that still stores ARL `"a"`. -/
def loggedOutState : DzState :=
  ⟨"", "", "", "en", 0, ["MP3_128"], "a", some "a"⟩

/-- A media network that returns an empty `data` array. -/
def emptyMediaNet : MediaNet := fun _ _ _ => ⟨[]⟩

/-- A media network that returns exactly one candidate source URL. -/
def singleMediaNet : MediaNet := fun _ _ _ =>
  ⟨[⟨[⟨[⟨"http://cdn/x"⟩]⟩]⟩]⟩

theorem processBlocksAux_fuel (dec : List Nat → List Nat) :
    ∀ (f g : Nat) (base : Int) (l : List Nat),
      l.length ≤ f → l.length ≤ g →
      processBlocksAux dec f base l = processBlocksAux dec g base l := by
  intro f
  induction f with
  | zero =>
    intro g base l hf _
    have hl : l = [] := List.eq_nil_of_length_eq_zero (Nat.le_zero.mp hf)
    subst hl
    cases g <;> rfl
  | succ f ih =>
    intro g base l hf hg
    match l with
    | [] => cases g <;> rfl
    | x :: xs =>
      match g with
      | 0 => simp at hg
      | g + 1 =>
        simp only [processBlocksAux]
        congr 1
        apply ih
        · simp only [List.length_drop, List.length_cons] at hf ⊢
          omega
        · simp only [List.length_drop, List.length_cons] at hg ⊢
          omega

theorem processBlocks_nil (dec : List Nat → List Nat) (base : Int) :
    processBlocks dec base [] = [] := rfl

theorem processBlocks_cons (dec : List Nat → List Nat) (base : Int)
    (l : List Nat) (h : l ≠ []) :
    processBlocks dec base l =
      (if base % 3 = 0 ∧ (l.take 2048).length = 2048 then dec (l.take 2048)
       else l.take 2048) ++ processBlocks dec (base + 1) (l.drop 2048) := by
  match l with
  | [] => exact absurd rfl h
  | x :: xs =>
    show processBlocksAux dec (xs.length + 1) base (x :: xs) = _
    simp only [processBlocksAux]
    congr 1
    show processBlocksAux dec xs.length (base + 1) (xs.drop 2047) =
      processBlocksAux dec ((x :: xs).drop 2048).length (base + 1)
        ((x :: xs).drop 2048)
    have hd : (x :: xs).drop 2048 = xs.drop 2047 := rfl
    rw [hd]
    apply processBlocksAux_fuel
    · simp only [List.length_drop]
      omega
    · exact le_rfl

theorem chunksOfAux_fuel :
    ∀ (f g n : Nat) (l : List α),
      l.length ≤ f → l.length ≤ g →
      chunksOfAux f n l = chunksOfAux g n l := by
  intro f
  induction f with
  | zero =>
    intro g n l hf _
    have hl : l = [] := List.eq_nil_of_length_eq_zero (Nat.le_zero.mp hf)
    subst hl
    cases g <;> rfl
  | succ f ih =>
    intro g n l hf hg
    match l with
    | [] => cases g <;> rfl
    | x :: xs =>
      match g with
      | 0 => simp at hg
      | g + 1 =>
        simp only [chunksOfAux]
        congr 1
        apply ih
        · simp only [List.length_drop, List.length_cons] at hf ⊢
          omega
        · simp only [List.length_drop, List.length_cons] at hg ⊢
          omega

theorem chunksOf_nil (n : Nat) : chunksOf n ([] : List α) = [] := rfl

theorem chunksOf_cons (n : Nat) (hn : 0 < n) (l : List α) (h : l ≠ []) :
    chunksOf n l = l.take n :: chunksOf n (l.drop n) := by
  match l with
  | x :: xs =>
    show chunksOfAux (xs.length + 1) n (x :: xs) = _
    simp only [chunksOfAux]
    congr 1
    show chunksOfAux xs.length n (xs.drop (n - 1)) =
      chunksOfAux ((x :: xs).drop n).length n ((x :: xs).drop n)
    have hd : (x :: xs).drop n = xs.drop (n - 1) := by
      match n, hn with
      | m + 1, _ => simp
    rw [hd]
    apply chunksOfAux_fuel
    · simp only [List.length_drop]
      omega
    · exact le_rfl

theorem mapWithIndex_nil (f : Nat → α → β) : mapWithIndex f [] = [] := rfl

theorem mapWithIndex_cons (f : Nat → α → β) (a : α) (l : List α) :
    mapWithIndex f (a :: l) = f 0 a :: mapWithIndex (fun k => f (k + 1)) l := rfl

theorem mapWithIndex_congr (f g : Nat → α → β) (l : List α)
    (h : ∀ k a, f k a = g k a) : mapWithIndex f l = mapWithIndex g l := by
  induction l generalizing f g with
  | nil => rfl
  | cons a l ih =>
    rw [mapWithIndex_cons, mapWithIndex_cons, h 0 a,
      ih _ _ (fun k a => h (k + 1) a)]

/-- The processor preserves the length of every chunk, provided the block
transform maps 2048-byte blocks to 2048-byte blocks (as Blowfish-CBC does). -/
theorem processBlocks_length (dec : List Nat → List Nat)
    (hdec : ∀ b : List Nat, b.length = 2048 → (dec b).length = 2048) :
    ∀ (n : Nat) (base : Int) (l : List Nat), l.length ≤ n →
      (processBlocks dec base l).length = l.length := by
  intro n
  induction n with
  | zero =>
    intro base l h
    have hl : l = [] := List.eq_nil_of_length_eq_zero (Nat.le_zero.mp h)
    subst hl
    simp [processBlocks_nil]
  | succ n ih =>
    intro base l h
    rcases eq_or_ne l [] with hl | hl
    · subst hl; simp [processBlocks_nil]
    · rw [processBlocks_cons dec base l hl]
      have hdrop : (l.drop 2048).length ≤ n := by
        have := List.length_pos.mpr hl
        simp only [List.length_drop]
        omega
      rw [List.length_append, ih (base + 1) (l.drop 2048) hdrop]
      by_cases hc : base % 3 = 0 ∧ (l.take 2048).length = 2048
      · rw [if_pos hc, hdec _ hc.2]
        simp only [List.length_drop]
        have : (l.take 2048).length = 2048 := hc.2
        simp only [List.length_take] at this
        omega
      · rw [if_neg hc]
        simp only [List.length_take, List.length_drop]
        omega

/-- The processor equals, window by window, the conditional block transform:
its output is the in-order concatenation over all 2048-byte windows of the
input, with `dec` applied exactly to the full windows whose absolute block
index is divisible by 3. -/
theorem processBlocks_eq_join (dec : List Nat → List Nat) :
    ∀ (n : Nat) (base : Int) (l : List Nat), l.length ≤ n →
      processBlocks dec base l =
        (mapWithIndex
          (fun k w => if (base + (k : Int)) % 3 = 0 ∧ w.length = 2048
                      then dec w else w)
          (chunksOf 2048 l)).flatten := by
  intro n
  induction n with
  | zero =>
    intro base l h
    have hl : l = [] := List.eq_nil_of_length_eq_zero (Nat.le_zero.mp h)
    subst hl
    simp [processBlocks_nil, chunksOf_nil, mapWithIndex_nil]
  | succ n ih =>
    intro base l h
    rcases eq_or_ne l [] with hl | hl
    · subst hl; simp [processBlocks_nil, chunksOf_nil, mapWithIndex_nil]
    · rw [processBlocks_cons dec base l hl,
        chunksOf_cons 2048 (by omega) l hl, mapWithIndex_cons, List.flatten_cons]
      have hdrop : (l.drop 2048).length ≤ n := by
        have := List.length_pos.mpr hl
        simp only [List.length_drop]
        omega
      rw [ih (base + 1) (l.drop 2048) hdrop]
      congr 1
      · norm_num
      · apply congrArg
        apply mapWithIndex_congr
        intro k w
        have : base + ((k : Int) + 1) = base + 1 + (k : Int) := by ring
        push_cast
        rw [this]

/-- Splitting off a prefix that is an exact multiple of 2048 bytes commutes
with the processor, advancing the base block index by the prefix's block
count. -/
theorem processBlocks_append (dec : List Nat → List Nat) :
    ∀ (j : Nat) (base : Int) (xs ys : List Nat), xs.length = 2048 * j →
      processBlocks dec base (xs ++ ys) =
        processBlocks dec base xs ++ processBlocks dec (base + (j : Int)) ys := by
  intro j
  induction j with
  | zero =>
    intro base xs ys h
    have hxs : xs = [] := List.eq_nil_of_length_eq_zero (by omega)
    subst hxs
    simp [processBlocks_nil]
  | succ j ih =>
    intro base xs ys h
    have hlen : 2048 ≤ xs.length := by omega
    have hxs : xs ≠ [] := by
      intro hc; subst hc; simp at h
    rcases eq_or_ne ys [] with hys | hys
    · subst hys
      simp [processBlocks_nil]
    · have hxys : xs ++ ys ≠ [] := by
        simp [hxs]
      rw [processBlocks_cons dec base _ hxys, processBlocks_cons dec base xs hxs]
      rw [List.take_append_of_le_length hlen, List.drop_append_of_le_length hlen]
      rw [ih (base + 1) (xs.drop 2048) ys (by simp [List.length_drop]; omega)]
      rw [List.append_assoc]
      congr 3
      push_cast
      ring

/-- Splitting a stream into consecutive chunks of `2048 * m` bytes and
processing chunk `k` with base block index `(b + k) * m` concatenates to
processing the whole stream with base block index `b * m`. -/
theorem processBlocks_split (dec : List Nat → List Nat) (m : Nat) (hm : 0 < m) :
    ∀ (n : Nat) (l : List Nat) (b : Nat), l.length ≤ n →
      (mapWithIndex
        (fun k ch => processBlocks dec ((((b + k : Nat)) : Int) * (m : Int)) ch)
        (chunksOf (2048 * m) l)).flatten =
      processBlocks dec ((b : Int) * (m : Int)) l := by
  intro n
  induction n with
  | zero =>
    intro l b h
    have hl : l = [] := List.eq_nil_of_length_eq_zero (Nat.le_zero.mp h)
    subst hl
    simp [chunksOf_nil, mapWithIndex_nil, processBlocks_nil]
  | succ n ih =>
    intro l b h
    rcases eq_or_ne l [] with hl | hl
    · subst hl
      simp [chunksOf_nil, mapWithIndex_nil, processBlocks_nil]
    · rw [chunksOf_cons (2048 * m) (by positivity) l hl, mapWithIndex_cons,
        List.flatten_cons]
      by_cases hlen : l.length ≤ 2048 * m
      · rw [List.take_of_length_le hlen, List.drop_eq_nil_of_le hlen,
          chunksOf_nil, mapWithIndex_nil, List.flatten_nil, List.append_nil]
        norm_num
      · push_neg at hlen
        have hdrop : (l.drop (2048 * m)).length ≤ n := by
          simp only [List.length_drop]
          omega
        have hmap :
            mapWithIndex
              (fun k ch =>
                (fun k ch =>
                    processBlocks dec ((((b + k : Nat)) : Int) * (m : Int)) ch)
                  (k + 1) ch)
              (chunksOf (2048 * m) (l.drop (2048 * m))) =
            mapWithIndex
              (fun k ch =>
                processBlocks dec (((((b + 1) + k : Nat)) : Int) * (m : Int)) ch)
              (chunksOf (2048 * m) (l.drop (2048 * m))) := by
          apply mapWithIndex_congr
          intro k a
          show processBlocks dec (((b + (k + 1) : Nat) : Int) * (m : Int)) a = _
          have hk : (((b + (k + 1) : Nat)) : Int) = (((b + 1) + k : Nat) : Int) := by
            push_cast
            ring
          rw [hk]
        rw [hmap, ih (l.drop (2048 * m)) (b + 1) hdrop]
        have htake : (l.take (2048 * m)).length = 2048 * m := by
          simp only [List.length_take]
          omega
        conv_rhs => rw [← List.take_append_drop (2048 * m) l]
        rw [processBlocks_append dec m ((b : Int) * (m : Int))
          (l.take (2048 * m)) (l.drop (2048 * m)) htake]
        congr 2
        all_goals push_cast
        all_goals ring

/-- Window `k` of the processor's output is exactly window `k` of the input,
transformed by `dec` when and only when that window is full-length and its
absolute block index `base + k` is divisible by 3. -/
theorem processBlocks_window (dec : List Nat → List Nat)
    (hdec : ∀ b : List Nat, b.length = 2048 → (dec b).length = 2048) :
    ∀ (k : Nat) (base : Int) (l : List Nat),
      ((processBlocks dec base l).drop (2048 * k)).take 2048 =
        (if (base + (k : Int)) % 3 = 0 ∧
            ((l.drop (2048 * k)).take 2048).length = 2048
         then dec ((l.drop (2048 * k)).take 2048)
         else (l.drop (2048 * k)).take 2048) := by
  intro k
  induction k with
  | zero =>
    intro base l
    rcases eq_or_ne l [] with hl | hl
    · subst hl; simp [processBlocks_nil]
    · rw [processBlocks_cons dec base l hl]
      simp only [Nat.mul_zero, List.drop_zero, Nat.cast_zero, add_zero]
      by_cases hfull : 2048 ≤ l.length
      · have hA : (if base % 3 = 0 ∧ (l.take 2048).length = 2048
              then dec (l.take 2048) else l.take 2048).length = 2048 := by
          by_cases hc : base % 3 = 0 ∧ (l.take 2048).length = 2048
          · rw [if_pos hc]; exact hdec _ hc.2
          · rw [if_neg hc]; simp only [List.length_take]; omega
        rw [List.take_append_eq_append_take, hA]
        simp only [Nat.sub_self, List.take_zero, List.append_nil]
        rw [List.take_of_length_le (le_of_eq hA)]
      · push_neg at hfull
        have hdropnil : l.drop 2048 = [] := List.drop_eq_nil_of_le (by omega)
        rw [hdropnil, processBlocks_nil, List.append_nil]
        have htk : (l.take 2048).length = l.length := by
          simp only [List.length_take]; omega
        have hcond : ¬(base % 3 = 0 ∧ (l.take 2048).length = 2048) := by
          intro hc; omega
        rw [if_neg hcond]
        simp [List.take_take]
  | succ k ih =>
    intro base l
    rcases eq_or_ne l [] with hl | hl
    · subst hl; simp [processBlocks_nil]
    · rw [processBlocks_cons dec base l hl]
      set A := (if base % 3 = 0 ∧ (l.take 2048).length = 2048
        then dec (l.take 2048) else l.take 2048) with hAdef
      by_cases hfull : 2048 ≤ l.length
      · have hA : A.length = 2048 := by
          rw [hAdef]
          by_cases hc : base % 3 = 0 ∧ (l.take 2048).length = 2048
          · rw [if_pos hc]; exact hdec _ hc.2
          · rw [if_neg hc]; simp only [List.length_take]; omega
        have h1 :
            (A ++ processBlocks dec (base + 1) (l.drop 2048)).drop (2048 * (k + 1)) =
            (processBlocks dec (base + 1) (l.drop 2048)).drop (2048 * k) := by
          have h2 : A.drop (2048 * (k + 1)) = [] :=
            List.drop_eq_nil_of_le (by omega)
          have h3 : 2048 * (k + 1) - A.length = 2048 * k := by omega
          rw [List.drop_append_eq_append_drop, h2, List.nil_append, h3]
        rw [h1, ih (base + 1) (l.drop 2048)]
        have hidx : (l.drop 2048).drop (2048 * k) = l.drop (2048 * (k + 1)) := by
          rw [List.drop_drop]
          congr 1
          omega
        rw [hidx]
        have hbase : base + 1 + (k : Int) = base + (((k + 1 : Nat)) : Int) := by
          push_cast
          ring
        rw [hbase]
      · push_neg at hfull
        have hdropnil : l.drop 2048 = [] := List.drop_eq_nil_of_le (by omega)
        rw [hdropnil, processBlocks_nil, List.append_nil]
        have hle : l.length ≤ 2048 * (k + 1) := by omega
        have hA : A.length ≤ 2048 * (k + 1) := by
          rw [hAdef]
          by_cases hc : base % 3 = 0 ∧ (l.take 2048).length = 2048
          · rw [if_pos hc, hdec _ hc.2]; omega
          · rw [if_neg hc]; simp only [List.length_take]; omega
        rw [List.drop_eq_nil_of_le hA, List.drop_eq_nil_of_le hle]
        simp

/-- C1: `process_chunk` transforms exactly the full-length 2048-byte windows
whose absolute block index is divisible by 3 and passes every other window
(including a final partial window) through unchanged; in particular, for a
5000-byte stream processed as the single chunk of index 0, only bytes
0..2047 (block 0) may differ from the input. -/
theorem process_chunk_selective_transform (dec : List Nat → List Nat)
    (hdec : ∀ b : List Nat, b.length = 2048 → (dec b).length = 2048) :
    (∀ (base : Int) (chunk : List Nat) (k : Nat),
      ((processBlocks dec base chunk).drop (2048 * k)).take 2048 =
        (if (base + (k : Int)) % 3 = 0 ∧
            ((chunk.drop (2048 * k)).take 2048).length = 2048
         then dec ((chunk.drop (2048 * k)).take 2048)
         else (chunk.drop (2048 * k)).take 2048)) ∧
    (∀ (s : List Nat) (f : List Nat → Int → List Nat),
      s.length = 5000 →
      createBlowfishDecryptor dec 1048576 = .ok f →
      (f s 0).take 2048 = dec (s.take 2048) ∧
      (f s 0).drop 2048 = s.drop 2048) := by
  constructor
  · intro base chunk k
    exact processBlocks_window dec hdec k base chunk
  · intro s f hs hf
    have hf2 : f = processChunk dec (1048576 / 2048) := by
      unfold createBlowfishDecryptor at hf
      rw [if_neg (by norm_num)] at hf
      exact (Except.ok.injEq _ _ ▸ congrArg id hf).symm ▸ (Except.ok.inj hf).symm
    have hf0 : f s 0 = processBlocks dec 0 s := by
      rw [hf2]
      simp [processChunk]
    have hrest : processBlocks dec 1 (s.drop 2048) = s.drop 2048 := by
      have hlen : (s.drop 2048).length = 2952 := by
        simp only [List.length_drop, hs]
      have hne : s.drop 2048 ≠ [] := by
        intro hc
        rw [hc] at hlen
        simp at hlen
      rw [processBlocks_cons dec 1 _ hne,
        if_neg (fun hc => by norm_num at hc : ¬((1 : Int) % 3 = 0 ∧
          (((s.drop 2048).take 2048)).length = 2048))]
      have hlen2 : ((s.drop 2048).drop 2048).length = 904 := by
        simp only [List.length_drop, hs]
      have hne2 : (s.drop 2048).drop 2048 ≠ [] := by
        intro hc
        rw [hc] at hlen2
        simp at hlen2
      rw [processBlocks_cons dec (1 + 1) _ hne2,
        if_neg (fun hc => by norm_num at hc : ¬(((1 : Int) + 1) % 3 = 0 ∧
          ((((s.drop 2048).drop 2048).take 2048)).length = 2048))]
      have hnil : ((s.drop 2048).drop 2048).drop 2048 = [] :=
        List.drop_eq_nil_of_le (by omega)
      have htk : ((s.drop 2048).drop 2048).take 2048 = (s.drop 2048).drop 2048 :=
        List.take_of_length_le (by omega)
      rw [hnil, processBlocks_nil, List.append_nil, htk, List.take_append_drop]
    have hdecomp : processBlocks dec 0 s =
        dec (s.take 2048) ++ (s.drop 2048) := by
      rw [processBlocks_cons dec 0 s (by intro hc; rw [hc] at hs; simp at hs)]
      rw [if_pos ⟨by norm_num, by simp only [List.length_take]; omega⟩]
      have h01 : (0 : Int) + 1 = 1 := by norm_num
      rw [h01, hrest]
    have hdlen : (dec (s.take 2048)).length = 2048 :=
      hdec _ (by simp only [List.length_take]; omega)
    constructor
    · rw [hf0, hdecomp, List.take_append_eq_append_take, hdlen]
      simp only [Nat.sub_self, List.take_zero, List.append_nil]
      exact List.take_of_length_le (le_of_eq hdlen)
    · rw [hf0, hdecomp, List.drop_append_eq_append_drop, hdlen]
      rw [List.drop_eq_nil_of_le (le_of_eq hdlen), List.nil_append]
      simp

/-- C1 witness: the window characterisation and the 5000-byte scenario
instantiated with a concrete length-preserving block transform. -/
theorem process_chunk_selective_transform_witness :
    (∀ b : List Nat, b.length = 2048 →
      (List.map (fun x => 255 - x) b).length = 2048) ∧
    (((processBlocks (fun b => List.map (fun x => 255 - x) b) 5 [9, 9, 9]).drop
        (2048 * 0)).take 2048 =
      (if ((5 : Int) + ((0 : Nat) : Int)) % 3 = 0 ∧
          ((([9, 9, 9] : List Nat).drop (2048 * 0)).take 2048).length = 2048
       then List.map (fun x => 255 - x)
         ((([9, 9, 9] : List Nat).drop (2048 * 0)).take 2048)
       else (([9, 9, 9] : List Nat).drop (2048 * 0)).take 2048)) := by
  have hdec : ∀ b : List Nat, b.length = 2048 →
      (List.map (fun x => 255 - x) b).length = 2048 := by
    intro b hb
    simpa using hb
  exact ⟨hdec,
    (process_chunk_selective_transform (fun b => List.map (fun x => 255 - x) b)
      hdec).1 5 [9, 9, 9] 0⟩

/-- C2: block selection is chunk-boundary independent — for every positive
multiple `2048 * m` of 2048, splitting a stream into consecutive chunks of
that size and running the processor with sequential chunk indices 0, 1, 2, …
concatenates to the same bytes as running the processor once on the whole
stream with chunk index 0. -/
theorem chunk_boundary_independence (dec : List Nat → List Nat) (m : Nat)
    (hm : 0 < m) (s : List Nat) :
    (mapWithIndex
      (fun k ch => processChunk dec ((2048 * (m : Int)) / 2048) ch (k : Int))
      (chunksOf (2048 * m) s)).flatten =
    processChunk dec ((2048 * (m : Int)) / 2048) s 0 := by
  have hdiv : (2048 * (m : Int)) / 2048 = (m : Int) := by
    rw [Int.mul_ediv_cancel_left]
    norm_num
  rw [hdiv]
  simp only [processChunk, zero_mul]
  have hsplit := processBlocks_split dec m hm s.length s 0 le_rfl
  simp only [Nat.cast_zero, zero_mul, Nat.zero_add] at hsplit
  exact hsplit

/-- C2 witness: the equality instantiated at chunk size 2048 (`m = 1`) and a
small concrete stream. -/
theorem chunk_boundary_independence_witness :
    0 < 1 ∧
    (mapWithIndex
      (fun k ch =>
        processChunk (fun b => b) ((2048 * ((1 : Nat) : Int)) / 2048) ch (k : Int))
      (chunksOf (2048 * 1) [3, 1, 4])).flatten =
    processChunk (fun b => b) ((2048 * ((1 : Nat) : Int)) / 2048) [3, 1, 4] 0 :=
  ⟨by decide, chunk_boundary_independence (fun b => b) 1 (by decide) [3, 1, 4]⟩

/-- C4 counterexample: the claim says a chunk size of 0 is rejected with a
configuration error, but `_create_blowfish_decryptor` accepts it, since the
only check is `chunk_size % 2048 != 0` and `0 % 2048 == 0`. -/
theorem chunk_size_zero_accepted :
    exceptIsOk (createBlowfishDecryptor (fun b => b) 0) = true := by
  rfl

/-- C4 amended: configuring the chunk processor raises the configuration
error (`ValueError`) if and only if the chunk size is not ≡ 0 (mod 2048);
2047 is rejected, 2048 and 1048576 are accepted, but 0 — although not a
positive multiple of 2048 — is accepted as well.  The check happens in
`_create_blowfish_decryptor` itself, before the processor is returned and
before any network activity. -/
theorem chunk_size_validation (dec : List Nat → List Nat) (chunkSize : Int) :
    (exceptIsOk (createBlowfishDecryptor dec chunkSize) = true ↔
      chunkSize % 2048 = 0) ∧
    exceptIsOk (createBlowfishDecryptor dec 2047) = false ∧
    exceptIsOk (createBlowfishDecryptor dec 2048) = true ∧
    exceptIsOk (createBlowfishDecryptor dec 1048576) = true ∧
    exceptIsOk (createBlowfishDecryptor dec 0) = true := by
  refine ⟨?_, by rfl, by rfl, by rfl, by rfl⟩
  unfold createBlowfishDecryptor
  by_cases h : chunkSize % 2048 = 0
  · rw [if_neg (by simpa using h)]
    simp [exceptIsOk, h]
  · rw [if_pos (by simpa using h)]
    simp [exceptIsOk, h]

/-- C8: for every chunk and chunk index the processor's output has exactly
the input's length, and it is the in-order concatenation of the input's
2048-byte windows, each either transformed in place or passed through —
positions and ordering are preserved. -/
theorem process_chunk_length_and_order (dec : List Nat → List Nat)
    (hdec : ∀ b : List Nat, b.length = 2048 → (dec b).length = 2048)
    (blocksPerChunk : Int) (chunk : List Nat) (chunkIndex : Int) :
    (processChunk dec blocksPerChunk chunk chunkIndex).length = chunk.length ∧
    processChunk dec blocksPerChunk chunk chunkIndex =
      (mapWithIndex
        (fun k w =>
          if (chunkIndex * blocksPerChunk + (k : Int)) % 3 = 0 ∧ w.length = 2048
          then dec w else w)
        (chunksOf 2048 chunk)).flatten := by
  constructor
  · exact processBlocks_length dec hdec chunk.length _ chunk le_rfl
  · exact processBlocks_eq_join dec chunk.length _ chunk le_rfl

/-- C8 witness: length and window decomposition at a concrete chunk. -/
theorem process_chunk_length_and_order_witness :
    (∀ b : List Nat, b.length = 2048 →
      (List.map (fun x => x + 1) b).length = 2048) ∧
    (processChunk (fun b => List.map (fun x => x + 1) b) 512 [7, 7] 3).length =
      ([7, 7] : List Nat).length ∧
    processChunk (fun b => List.map (fun x => x + 1) b) 512 [7, 7] 3 =
      (mapWithIndex
        (fun k w =>
          if ((3 : Int) * 512 + (k : Int)) % 3 = 0 ∧ w.length = 2048
          then List.map (fun x => x + 1) w else w)
        (chunksOf 2048 [7, 7])).flatten := by
  have hdec : ∀ b : List Nat, b.length = 2048 →
      (List.map (fun x => x + 1) b).length = 2048 := by
    intro b hb
    simpa using hb
  exact ⟨hdec,
    process_chunk_length_and_order (fun b => List.map (fun x => x + 1) b)
      hdec 512 [7, 7] 3⟩

/-! ## Key derivation (`get_blowfish_key`, claim C3) -/

set_option maxRecDepth 100000 in
/-- Sanity check of the MD5 embedding against the RFC 1321 test suite:
the hex digest of the empty message is `d41d8cd98f00b204e9800998ecf8427e`
(as ASCII codes). -/
theorem md5_empty_string_vector :
    toHexBytes (md5bytes []) =
      [100, 52, 49, 100, 56, 99, 100, 57, 56, 102, 48, 48, 98, 50, 48, 52,
       101, 57, 56, 48, 48, 57, 57, 56, 101, 99, 102, 56, 52, 50, 55, 101] := by
  decide

set_option maxRecDepth 100000 in
/-- Sanity check of the whole key derivation against a reference run of the
Python source on track id `"3135556"` with secret bytes `0..15`. -/
theorem getBlowfishKey_reference_vector :
    getBlowfishKey [0, 1, 2, 3, 4, 5, 6, 7, 8, 9, 10, 11, 12, 13, 14, 15]
        [51, 49, 51, 53, 53, 53, 54] =
      [11, 89, 1, 4, 8, 91, 93, 83, 93, 86, 9, 13, 9, 7, 91, 7] := by
  decide

theorem toLEBytes_length (k x : Nat) : (toLEBytes k x).length = k := by
  simp [toLEBytes]

theorem toLEBytes_lt (k x : Nat) : ∀ b ∈ toLEBytes k x, b < 256 := by
  intro b hb
  simp only [toLEBytes, List.mem_map, List.mem_range] at hb
  obtain ⟨i, _, rfl⟩ := hb
  exact Nat.mod_lt _ (by norm_num)

theorem md5bytes_length (msg : List Nat) : (md5bytes msg).length = 16 := by
  simp [md5bytes, toLEBytes_length]

theorem md5bytes_lt (msg : List Nat) : ∀ b ∈ md5bytes msg, b < 256 := by
  intro b hb
  simp only [md5bytes, List.mem_append] at hb
  rcases hb with ((hb | hb) | hb) | hb <;> exact toLEBytes_lt _ _ b hb

theorem toHexBytes_length (bs : List Nat) :
    (toHexBytes bs).length = 2 * bs.length := by
  induction bs with
  | nil => rfl
  | cons b bs ih =>
    simp only [toHexBytes, List.length_cons, ih]
    omega

theorem hexCharCode_lt (n : Nat) (hn : n < 16) : hexCharCode n < 128 := by
  unfold hexCharCode
  split <;> omega

theorem toHexBytes_ascii (bs : List Nat) (hbs : ∀ b ∈ bs, b < 256) :
    ∀ c ∈ toHexBytes bs, c < 128 := by
  induction bs with
  | nil => intro c hc; simp [toHexBytes] at hc
  | cons b bs ih =>
    intro c hc
    have hb : b < 256 := hbs b (by simp)
    simp only [toHexBytes, List.mem_cons] at hc
    rcases hc with rfl | rfl | hc
    · exact hexCharCode_lt _ (by omega)
    · exact hexCharCode_lt _ (Nat.mod_lt _ (by norm_num))
    · exact ih (fun a ha => hbs a (by simp [ha])) c hc

theorem range_map_getD (f : Nat → Nat) (n i : Nat) (hi : i < n) :
    ((List.range n).map f).getD i 0 = f i := by
  simp [List.getD_eq_getElem?_getD, List.getElem?_map, List.getElem?_range, hi]

/-- C3: `get_blowfish_key` derives, for every track identifier, a 16-byte
key whose byte `i` is `digest[i] XOR digest[i + 16] XOR secret[i]` over the
lowercase hexadecimal MD5 digest of the identifier's encoding — a pure
32-ASCII-byte digest — and the derivation is deterministic. -/
theorem derive_key_spec (bfSecret trackId : List Nat) :
    (getBlowfishKey bfSecret trackId).length = 16 ∧
    (toHexBytes (md5bytes trackId)).length = 32 ∧
    (∀ c ∈ toHexBytes (md5bytes trackId), c < 128) ∧
    (∀ i, i < 16 →
      (getBlowfishKey bfSecret trackId).getD i 0 =
        ((toHexBytes (md5bytes trackId)).getD i 0) ^^^
        ((toHexBytes (md5bytes trackId)).getD (i + 16) 0) ^^^
        (bfSecret.getD i 0)) ∧
    getBlowfishKey bfSecret trackId = getBlowfishKey bfSecret trackId := by
  refine ⟨?_, ?_, ?_, ?_, rfl⟩
  · simp [getBlowfishKey]
  · rw [toHexBytes_length, md5bytes_length]
  · exact toHexBytes_ascii _ (md5bytes_lt trackId)
  · intro i hi
    unfold getBlowfishKey
    exact range_map_getD _ 16 i hi

theorem gwCallBody_state_of_ne (net : Net) (now : Int) (st : DzState)
    (method : String) (payload : GwPayload)
    (hmethod : method ≠ "deezer.getUserData") :
    (gwCallBody net now st method payload).1 = st := by
  unfold gwCallBody
  cases hre : (net method (gwToken st method) payload).error with
  | some e => rfl
  | none => simp [hmethod]

theorem gwCallBody_trace (net : Net) (now : Int) (st : DzState)
    (method : String) (payload : GwPayload) :
    (gwCallBody net now st method payload).2.1 =
      [Req.gw method (gwToken st method) payload] := by
  unfold gwCallBody
  cases hre : (net method (gwToken st method) payload).error with
  | some e => rfl
  | none =>
    by_cases h : method = "deezer.getUserData" <;> simp [h]

theorem gwCallBody_error (net : Net) (now : Int) (st : DzState)
    (method : String) (payload : GwPayload) (e : String × String)
    (hre : (net method (gwToken st method) payload).error = some e) :
    gwCallBody net now st method payload =
      (st, [Req.gw method (gwToken st method) payload],
        .error (.moduleApiError 400 (e.1 ++ ": " ++ e.2) method)) := by
  unfold gwCallBody
  rw [hre]

theorem gwCallBody_ok_of_ne (net : Net) (now : Int) (st : DzState)
    (method : String) (payload : GwPayload)
    (hre : (net method (gwToken st method) payload).error = none)
    (hmethod : method ≠ "deezer.getUserData") :
    gwCallBody net now st method payload =
      (st, [Req.gw method (gwToken st method) payload],
        .ok (net method (gwToken st method) payload).results) := by
  unfold gwCallBody
  rw [hre]
  simp [hmethod]

theorem gwCallBody_getUserData (net : Net) (now : Int) (st : DzState)
    (payload : GwPayload)
    (hre : (net "deezer.getUserData" "" payload).error = none) :
    gwCallBody net now st "deezer.getUserData" payload =
      ({ st with
          apiToken := (net "deezer.getUserData" "" payload).results.checkForm,
          country := (net "deezer.getUserData" "" payload).results.country,
          licenseToken :=
            (net "deezer.getUserData" "" payload).results.userOptions.licenseToken,
          renewTimestamp := now,
          language := (net "deezer.getUserData" "" payload).results.language,
          availableFormats :=
            formatsOf (net "deezer.getUserData" "" payload).results.userOptions },
        [Req.gw "deezer.getUserData" "" payload],
        .ok (net "deezer.getUserData" "" payload).results) := by
  have htok : gwToken st "deezer.getUserData" = "" := by
    simp [gwToken, authMethods]
  unfold gwCallBody
  rw [htok, hre]
  simp

theorem gwApiCall_no_relogin (net : Net) (now : Int) (st : DzState)
    (method : String) (payload : GwPayload) (htok : st.apiToken ≠ "") :
    gwApiCall net now st method payload =
      gwCallBody net now st method payload := by
  unfold gwApiCall
  rw [if_neg]
  simp [htok]

theorem gwApiCall_auth_method (net : Net) (now : Int) (st : DzState)
    (method : String) (payload : GwPayload) (hauth : method ∈ authMethods) :
    gwApiCall net now st method payload =
      gwCallBody net now st method payload := by
  unfold gwApiCall
  rw [if_neg]
  simp [hauth]

/-- C10: session state is mutated only by the bootstrap method — every
gateway call whose method is not `deezer.getUserData`, made while the token
is non-empty (so no auto-relogin triggers), leaves the authentication
token, country, license token, language, token issue time and
available-format set unchanged, whether it succeeds or reports an error. -/
theorem session_state_frame (net : Net) (now : Int) (st : DzState)
    (method : String) (payload : GwPayload)
    (htok : st.apiToken ≠ "") (hmethod : method ≠ "deezer.getUserData") :
    (gwApiCall net now st method payload).1.apiToken = st.apiToken ∧
    (gwApiCall net now st method payload).1.country = st.country ∧
    (gwApiCall net now st method payload).1.licenseToken = st.licenseToken ∧
    (gwApiCall net now st method payload).1.language = st.language ∧
    (gwApiCall net now st method payload).1.renewTimestamp =
      st.renewTimestamp ∧
    (gwApiCall net now st method payload).1.availableFormats =
      st.availableFormats := by
  rw [gwApiCall_no_relogin net now st method payload htok,
    gwCallBody_state_of_ne net now st method payload hmethod]
  exact ⟨rfl, rfl, rfl, rfl, rfl, rfl⟩

/-- C10 witness: a concrete non-bootstrap call with a non-empty token. -/
theorem session_state_frame_witness :
    (sampleState.apiToken ≠ "" ∧ "song.getData" ≠ "deezer.getUserData") ∧
    ((gwApiCall sampleNet 5 sampleState "song.getData" {}).1.apiToken =
        sampleState.apiToken ∧
      (gwApiCall sampleNet 5 sampleState "song.getData" {}).1.country =
        sampleState.country) := by
  constructor
  · exact ⟨by decide, by decide⟩
  · have h := session_state_frame sampleNet 5 sampleState "song.getData" {}
      (by decide) (by decide)
    exact ⟨h.1, h.2.1⟩

/-- C9: when the bootstrap response carries no error envelope, login via a
stored ARL behaves as follows. If the service returns an empty user id, the
operation raises `ModuleAuthError` and discards the credential — the stored
ARL and its cookie are cleared.  If the user id is non-empty, the session's
token, country, license token, language, token issue time and
available-format set are all populated from the response and the call
returns its results. -/
theorem login_via_arl_spec (net : Net) (now : Int) (st : DzState)
    (arl : String)
    (hre : (net "deezer.getUserData" "" ({} : GwPayload)).error = none) :
    ((net "deezer.getUserData" "" ({} : GwPayload)).results.userId = "" →
      (loginViaArl net now st arl).2.2 = .error .moduleAuthError ∧
      (loginViaArl net now st arl).1.arl = "" ∧
      (loginViaArl net now st arl).1.cookieArl = none) ∧
    ((net "deezer.getUserData" "" ({} : GwPayload)).results.userId ≠ "" →
      (loginViaArl net now st arl).2.2 =
        .ok (net "deezer.getUserData" "" ({} : GwPayload)).results ∧
      (loginViaArl net now st arl).1.apiToken =
        (net "deezer.getUserData" "" ({} : GwPayload)).results.checkForm ∧
      (loginViaArl net now st arl).1.country =
        (net "deezer.getUserData" "" ({} : GwPayload)).results.country ∧
      (loginViaArl net now st arl).1.licenseToken =
        (net "deezer.getUserData" "" ({} :
          GwPayload)).results.userOptions.licenseToken ∧
      (loginViaArl net now st arl).1.language =
        (net "deezer.getUserData" "" ({} : GwPayload)).results.language ∧
      (loginViaArl net now st arl).1.renewTimestamp = now ∧
      (loginViaArl net now st arl).1.availableFormats =
        formatsOf (net "deezer.getUserData" "" ({} :
          GwPayload)).results.userOptions ∧
      (loginViaArl net now st arl).1.arl = arl ∧
      (loginViaArl net now st arl).1.cookieArl = some arl) := by
  have hauth : "deezer.getUserData" ∈ authMethods := by
    simp [authMethods]
  unfold loginViaArl
  rw [gwApiCall_auth_method net now _ _ _ hauth,
    gwCallBody_getUserData net now _ _ hre]
  constructor
  · intro hu
    simp [hu]
  · intro hu
    simp [hu]

/-- C9 witness: an ARL login against a service answering with an empty user
id raises `ModuleAuthError` and clears both the stored ARL and its cookie. -/
theorem login_via_arl_spec_witness :
    ((emptyTokenNet "deezer.getUserData" "" ({} : GwPayload)).error = none ∧
      (emptyTokenNet "deezer.getUserData" ""
        ({} : GwPayload)).results.userId = "") ∧
    ((loginViaArl emptyTokenNet 7 sampleState "badArl").2.2 =
        .error .moduleAuthError ∧
      (loginViaArl emptyTokenNet 7 sampleState "badArl").1.arl = "" ∧
      (loginViaArl emptyTokenNet 7 sampleState "badArl").1.cookieArl =
        none) :=
  ⟨⟨rfl, rfl⟩,
    (login_via_arl_spec emptyTokenNet 7 sampleState "badArl" rfl).1 rfl⟩

/-- C6 counterexample: with an empty token, a stored ARL and a bootstrap
that itself reports an empty `checkForm` token, the claim says the
operation fails with a fatal auth error; instead the code performs exactly
one bootstrap and then proceeds to issue the outer call with the (still
empty) token, returning its result — no `ModuleAuthError` is raised. -/
theorem auto_relogin_no_auth_error :
    (gwApiCall emptyTokenNet 3 loggedOutState "song.getData" {}).2.2 =
      .ok (emptyTokenNet "song.getData" "" {}).results ∧
    isModuleAuthError
      (gwApiCall emptyTokenNet 3 loggedOutState "song.getData" {}).2.2 =
      false ∧
    (gwApiCall emptyTokenNet 3 loggedOutState "song.getData" {}).2.1 =
      [Req.gw "deezer.getUserData" "" {}, Req.gw "song.getData" "" {}] := by
  refine ⟨rfl, rfl, rfl⟩

/-- C6 amended: auto-relogin is bounded to a single bootstrap attempt per
outer call — with an empty token and a stored credential, exactly one
`deezer.getUserData` bootstrap is performed before the outer request, and
the recursion goes no deeper; however, when the bootstrap itself yields a
second consecutive empty-token result, the code does not raise an
`AuthError`: it simply proceeds, issuing the outer request with the empty
token it just received. -/
theorem auto_relogin_single_bootstrap (net : Net) (now : Int) (st : DzState)
    (method : String) (payload : GwPayload)
    (htok : st.apiToken = "") (harl : st.arl ≠ "")
    (hm : method ∉ authMethods)
    (hre : (net "deezer.getUserData" "" ({} : GwPayload)).error = none) :
    (gwApiCall net now st method payload).2.1 =
      [Req.gw "deezer.getUserData" "" {},
       Req.gw method
         (net "deezer.getUserData" "" ({} : GwPayload)).results.checkForm
         payload] ∧
    ((gwApiCall net now st method payload).2.1.countP isBootstrapReq) = 1 ∧
    isModuleAuthError (gwApiCall net now st method payload).2.2 = false := by
  have hne : method ≠ "deezer.getUserData" := by
    intro hc
    exact hm (by simp [authMethods, hc])
  unfold gwApiCall
  rw [if_pos ⟨htok, harl, hm⟩, gwCallBody_getUserData net now st {} hre]
  have htk : gwToken { st with
      apiToken := (net "deezer.getUserData" "" ({} :
        GwPayload)).results.checkForm,
      country := (net "deezer.getUserData" "" ({} : GwPayload)).results.country,
      licenseToken :=
        (net "deezer.getUserData" "" ({} :
          GwPayload)).results.userOptions.licenseToken,
      renewTimestamp := now,
      language := (net "deezer.getUserData" "" ({} : GwPayload)).results.language,
      availableFormats :=
        formatsOf (net "deezer.getUserData" "" ({} :
          GwPayload)).results.userOptions } method =
      (net "deezer.getUserData" "" ({} : GwPayload)).results.checkForm := by
    unfold gwToken
    rw [if_neg hm]
  refine ⟨?_, ?_, ?_⟩
  · show Req.gw "deezer.getUserData" "" {} ::
      (gwCallBody net now _ method payload).2.1 = _
    rw [gwCallBody_trace, htk]
  · show (Req.gw "deezer.getUserData" "" {} ::
      (gwCallBody net now _ method payload).2.1).countP isBootstrapReq = 1
    rw [gwCallBody_trace]
    simp [List.countP_cons, isBootstrapReq, hne]
  · show isModuleAuthError (gwCallBody net now _ method payload).2.2 = false
    unfold gwCallBody
    cases hout : (net method (gwToken _ method) payload).error with
    | some e => simp [isModuleAuthError]
    | none =>
      by_cases hgm : method = "deezer.getUserData" <;>
        simp [hgm, isModuleAuthError]

/-- C6 amended witness: the single-bootstrap behaviour at the concrete
empty-token scenario. -/
theorem auto_relogin_single_bootstrap_witness :
    (loggedOutState.apiToken = "" ∧ loggedOutState.arl ≠ "" ∧
      "song.getData" ∉ authMethods ∧
      (emptyTokenNet "deezer.getUserData" "" ({} : GwPayload)).error = none) ∧
    ((gwApiCall emptyTokenNet 3 loggedOutState "song.getData" {}).2.1 =
      [Req.gw "deezer.getUserData" "" {},
       Req.gw "song.getData"
         (emptyTokenNet "deezer.getUserData" "" ({} :
           GwPayload)).results.checkForm {}] ∧
    ((gwApiCall emptyTokenNet 3 loggedOutState
        "song.getData" {}).2.1.countP isBootstrapReq) = 1 ∧
    isModuleAuthError
      (gwApiCall emptyTokenNet 3 loggedOutState "song.getData" {}).2.2 =
      false) := by
  refine ⟨⟨rfl, by decide, by decide, rfl⟩, ?_⟩
  exact auto_relogin_single_bootstrap emptyTokenNet 3 loggedOutState
    "song.getData" {} rfl (by decide) (by decide) rfl

/-- C7: stream-URL resolution applies the two renewal rules in order.
(1) When `now - renew_timestamp ≥ 3600` exactly one `deezer.getUserData`
bootstrap is issued, and it comes first; when the difference is below 3600
no bootstrap is issued at all.  (2) When `now` is at or past the per-track
token expiry, a `song.getData` call scoped to `TRACK_TOKEN` is issued with
the current token and the media request carries the freshly fetched track
token; otherwise no `song.getData` call happens and the media request
carries the supplied token.  Here `stMid` denotes the session state after
the (possible) bootstrap. -/
theorem get_track_url_renewal (net : Net) (mediaNet : MediaNet) (now : Int)
    (st : DzState) (trackId trackToken : String) (expiry : Int) (fmt : String)
    (htok : st.apiToken ≠ "")
    (hcf : (net "deezer.getUserData" "" ({} : GwPayload)).results.checkForm ≠ "")
    (hre1 : (net "deezer.getUserData" "" ({} : GwPayload)).error = none)
    (hre2 : ∀ t, (net "song.getData" t (songTokenPayload trackId)).error = none) :
    (3600 ≤ now - st.renewTimestamp →
      (getTrackUrl net mediaNet now st trackId trackToken expiry
        fmt).2.1.head? = some (Req.gw "deezer.getUserData" "" {}) ∧
      ((getTrackUrl net mediaNet now st trackId trackToken expiry
        fmt).2.1.countP isBootstrapReq) = 1) ∧
    (now - st.renewTimestamp < 3600 →
      ((getTrackUrl net mediaNet now st trackId trackToken expiry
        fmt).2.1.countP isBootstrapReq) = 0) ∧
    (expiry ≤ now →
      Req.gw "song.getData"
          (if 3600 ≤ now - st.renewTimestamp then
            (gwApiCall net now st "deezer.getUserData" {}).1.apiToken
          else st.apiToken)
          (songTokenPayload trackId) ∈
        (getTrackUrl net mediaNet now st trackId trackToken expiry fmt).2.1 ∧
      Req.media
          (if 3600 ≤ now - st.renewTimestamp then
            (gwApiCall net now st "deezer.getUserData" {}).1.licenseToken
          else st.licenseToken)
          ((net "song.getData"
            (if 3600 ≤ now - st.renewTimestamp then
              (gwApiCall net now st "deezer.getUserData" {}).1.apiToken
            else st.apiToken)
            (songTokenPayload trackId)).results.trackToken) fmt ∈
        (getTrackUrl net mediaNet now st trackId trackToken expiry fmt).2.1) ∧
    (now < expiry →
      ((getTrackUrl net mediaNet now st trackId trackToken expiry
        fmt).2.1.countP isSongDataReq) = 0 ∧
      Req.media
          (if 3600 ≤ now - st.renewTimestamp then
            (gwApiCall net now st "deezer.getUserData" {}).1.licenseToken
          else st.licenseToken)
          trackToken fmt ∈
        (getTrackUrl net mediaNet now st trackId trackToken expiry fmt).2.1) := by
  have hsauth : "song.getData" ∉ authMethods := by decide
  have hsne : "song.getData" ≠ "deezer.getUserData" := by decide
  have hgauth : "deezer.getUserData" ∈ authMethods := by decide
  by_cases hren : 3600 ≤ now - st.renewTimestamp
  · -- bootstrap path
    have hboot : gwApiCall net now st "deezer.getUserData" {} =
        gwCallBody net now st "deezer.getUserData" {} :=
      gwApiCall_auth_method net now st _ {} hgauth
    rw [gwCallBody_getUserData net now st {} hre1] at hboot
    have hmain : getTrackUrl net mediaNet now st trackId trackToken expiry fmt =
        tokenStep net mediaNet now
          (gwApiCall net now st "deezer.getUserData" {}).1
          [Req.gw "deezer.getUserData" "" {}] trackId trackToken expiry fmt := by
      unfold getTrackUrl
      rw [if_pos hren, hboot]
    rw [hmain, hboot]
    set st1 := ({ st with
      apiToken := (net "deezer.getUserData" "" ({} :
        GwPayload)).results.checkForm,
      country := (net "deezer.getUserData" "" ({} : GwPayload)).results.country,
      licenseToken := (net "deezer.getUserData" "" ({} :
        GwPayload)).results.userOptions.licenseToken,
      renewTimestamp := now,
      language := (net "deezer.getUserData" "" ({} : GwPayload)).results.language,
      availableFormats := formatsOf (net "deezer.getUserData" "" ({} :
        GwPayload)).results.userOptions } : DzState) with hst1
    have htok1 : st1.apiToken ≠ "" := hcf
    have hmid : (gwApiCall net now st "deezer.getUserData" ({} : GwPayload)).1 =
        st1 := by
      rw [hboot]
    have hgwtok : gwToken st1 "song.getData" = st1.apiToken := by
      unfold gwToken
      rw [if_neg hsauth]
    by_cases hexp : expiry ≤ now
    · have hsong : gwApiCall net now st1 "song.getData"
          (songTokenPayload trackId) =
          (st1, [Req.gw "song.getData" st1.apiToken (songTokenPayload trackId)],
            .ok (net "song.getData" st1.apiToken
              (songTokenPayload trackId)).results) := by
        rw [gwApiCall_no_relogin net now st1 _ _ htok1,
          gwCallBody_ok_of_ne net now st1 _ _ (by rw [hgwtok]; exact hre2 _)
            hsne, hgwtok]
      have hts : tokenStep net mediaNet now st1
          [Req.gw "deezer.getUserData" "" {}] trackId trackToken expiry fmt =
          (st1,
            [Req.gw "deezer.getUserData" "" {},
             Req.gw "song.getData" st1.apiToken (songTokenPayload trackId),
             Req.media st1.licenseToken
               ((net "song.getData" st1.apiToken
                 (songTokenPayload trackId)).results.trackToken) fmt],
            extractMediaUrl (mediaNet st1.licenseToken
              ((net "song.getData" st1.apiToken
                (songTokenPayload trackId)).results.trackToken) fmt)) := by
        unfold tokenStep
        rw [if_pos hexp, hsong]
        rfl
      rw [hts]
      refine ⟨fun _ => ⟨rfl, ?_⟩, fun hc => absurd hren (by omega),
        fun _ => ⟨?_, ?_⟩, fun hc => absurd hexp (by omega)⟩
      · simp [List.countP_cons, isBootstrapReq, hsne]
      · simp only [if_pos hren]
        simp
      · simp only [if_pos hren]
        simp
    · push_neg at hexp
      have hts : tokenStep net mediaNet now st1
          [Req.gw "deezer.getUserData" "" {}] trackId trackToken expiry fmt =
          (st1,
            [Req.gw "deezer.getUserData" "" {},
             Req.media st1.licenseToken trackToken fmt],
            extractMediaUrl (mediaNet st1.licenseToken trackToken fmt)) := by
        unfold tokenStep
        rw [if_neg (by omega)]
        rfl
      rw [hts]
      refine ⟨fun _ => ⟨rfl, ?_⟩, fun hc => absurd hren (by omega),
        fun hc => absurd hexp (by omega), fun _ => ⟨?_, ?_⟩⟩
      · simp [List.countP_cons, isBootstrapReq, hsne]
      · simp [List.countP_cons, isSongDataReq]
      · simp only [if_pos hren]
        simp
  · -- no bootstrap
    push_neg at hren
    have hmain : getTrackUrl net mediaNet now st trackId trackToken expiry fmt =
        tokenStep net mediaNet now st [] trackId trackToken expiry fmt := by
      unfold getTrackUrl
      rw [if_neg (by omega)]
    rw [hmain]
    have hgwtok : gwToken st "song.getData" = st.apiToken := by
      unfold gwToken
      rw [if_neg hsauth]
    by_cases hexp : expiry ≤ now
    · have hsong : gwApiCall net now st "song.getData"
          (songTokenPayload trackId) =
          (st, [Req.gw "song.getData" st.apiToken (songTokenPayload trackId)],
            .ok (net "song.getData" st.apiToken
              (songTokenPayload trackId)).results) := by
        rw [gwApiCall_no_relogin net now st _ _ htok,
          gwCallBody_ok_of_ne net now st _ _ (by rw [hgwtok]; exact hre2 _)
            hsne, hgwtok]
      have hts : tokenStep net mediaNet now st [] trackId trackToken expiry
          fmt =
          (st,
            [Req.gw "song.getData" st.apiToken (songTokenPayload trackId),
             Req.media st.licenseToken
               ((net "song.getData" st.apiToken
                 (songTokenPayload trackId)).results.trackToken) fmt],
            extractMediaUrl (mediaNet st.licenseToken
              ((net "song.getData" st.apiToken
                (songTokenPayload trackId)).results.trackToken) fmt)) := by
        unfold tokenStep
        rw [if_pos hexp, hsong]
        rfl
      rw [hts]
      refine ⟨fun hc => absurd hc (by omega), fun _ => ?_,
        fun _ => ⟨?_, ?_⟩, fun hc => absurd hexp (by omega)⟩
      · simp [List.countP_cons, isBootstrapReq, hsne]
      · rw [if_neg (by omega)]
        simp
      · rw [if_neg (by omega), if_neg (by omega)]
        simp
    · push_neg at hexp
      have hts : tokenStep net mediaNet now st [] trackId trackToken expiry
          fmt =
          (st, [Req.media st.licenseToken trackToken fmt],
            extractMediaUrl (mediaNet st.licenseToken trackToken fmt)) := by
        unfold tokenStep
        rw [if_neg (by omega)]
        rfl
      rw [hts]
      refine ⟨fun hc => absurd hc (by omega), fun _ => ?_,
        fun hc => absurd hc (by omega), fun _ => ⟨?_, ?_⟩⟩
      · simp [List.countP_cons, isBootstrapReq]
      · simp [List.countP_cons, isSongDataReq]
      · rw [if_neg (by omega)]
        simp

/-- C7 witness: a resolution with the issue time 3601 seconds in the past
(and an unexpired track token) issues the bootstrap first and exactly
once. -/
theorem get_track_url_renewal_witness :
    (sampleState.apiToken ≠ "" ∧
      (sampleNet "deezer.getUserData" "" ({} :
        GwPayload)).results.checkForm ≠ "" ∧
      (sampleNet "deezer.getUserData" "" ({} : GwPayload)).error = none ∧
      (3600 : Int) ≤ 3601 - sampleState.renewTimestamp) ∧
    ((getTrackUrl sampleNet singleMediaNet 3601 sampleState "42" "tok" 999999
        "FLAC").2.1.head? = some (Req.gw "deezer.getUserData" "" {}) ∧
      ((getTrackUrl sampleNet singleMediaNet 3601 sampleState "42" "tok"
        999999 "FLAC").2.1.countP isBootstrapReq) = 1) := by
  refine ⟨⟨by decide, by decide, rfl, by decide⟩, ?_⟩
  exact (get_track_url_renewal sampleNet singleMediaNet 3601 sampleState "42"
    "tok" 999999 "FLAC" (by decide) (by decide) rfl (fun t => rfl)).1
    (by decide)

/-- C5 counterexample: the claim says an empty `data` array in the
media-negotiation response is reported as an `ApiError`; instead the
navigation `data[0]["media"][0]["sources"][0]["url"]` raises an uncaught
`IndexError` — a crash, not a `ModuleAPIError`. -/
theorem media_unavailable_is_index_error :
    (getTrackUrl sampleNet emptyMediaNet 0 sampleState "1" "tok" 100
      "FLAC").2.2 = .error .indexError ∧
    isModuleApiError
      (getTrackUrl sampleNet emptyMediaNet 0 sampleState "1" "tok" 100
        "FLAC").2.2 = false :=
  ⟨rfl, rfl⟩

/-- C5 amended: when no token renewal triggers, resolving the stream URL
against a response with an empty candidate list fails with an uncaught
`IndexError` (a crash), not with an `ApiError`; when exactly one candidate
is present, its URL is returned as-is. -/
theorem media_url_extraction (net : Net) (mediaNet : MediaNet) (now : Int)
    (st : DzState) (trackId trackToken : String) (expiry : Int) (fmt : String)
    (hren : now - st.renewTimestamp < 3600) (hexp : now < expiry) :
    (mediaNet st.licenseToken trackToken fmt = ⟨[]⟩ →
      (getTrackUrl net mediaNet now st trackId trackToken expiry fmt).2.2 =
        .error .indexError ∧
      isModuleApiError
        (getTrackUrl net mediaNet now st trackId trackToken expiry
          fmt).2.2 = false) ∧
    (∀ u, mediaNet st.licenseToken trackToken fmt = ⟨[⟨[⟨[⟨u⟩]⟩]⟩]⟩ →
      (getTrackUrl net mediaNet now st trackId trackToken expiry fmt).2.2 =
        .ok u) := by
  have hmain : getTrackUrl net mediaNet now st trackId trackToken expiry fmt =
      (st, [Req.media st.licenseToken trackToken fmt],
        extractMediaUrl (mediaNet st.licenseToken trackToken fmt)) := by
    unfold getTrackUrl
    rw [if_neg (by omega)]
    unfold tokenStep
    rw [if_neg (by omega)]
    rfl
  rw [hmain]
  constructor
  · intro hmr
    rw [hmr]
    exact ⟨rfl, rfl⟩
  · intro u hmr
    rw [hmr]
    rfl

/-- C5 amended witness: the crash at an empty candidate list and the
pass-through of a single candidate's URL, at concrete inputs. -/
theorem media_url_extraction_witness :
    ((0 : Int) - sampleState.renewTimestamp < 3600 ∧ (0 : Int) < 100 ∧
      emptyMediaNet sampleState.licenseToken "tok" "FLAC" = ⟨[]⟩ ∧
      singleMediaNet sampleState.licenseToken "tok" "FLAC" =
        ⟨[⟨[⟨[⟨"http://cdn/x"⟩]⟩]⟩]⟩) ∧
    ((getTrackUrl sampleNet emptyMediaNet 0 sampleState "1" "tok" 100
        "FLAC").2.2 = .error .indexError ∧
      isModuleApiError
        (getTrackUrl sampleNet emptyMediaNet 0 sampleState "1" "tok" 100
          "FLAC").2.2 = false) ∧
    (getTrackUrl sampleNet singleMediaNet 0 sampleState "1" "tok" 100
      "FLAC").2.2 = .ok "http://cdn/x" := by
  refine ⟨⟨by decide, by decide, rfl, rfl⟩, ?_, ?_⟩
  · exact (media_url_extraction sampleNet emptyMediaNet 0 sampleState "1"
      "tok" 100 "FLAC" (by decide) (by decide)).1 rfl
  · exact (media_url_extraction sampleNet singleMediaNet 0 sampleState "1"
      "tok" 100 "FLAC" (by decide) (by decide)).2 "http://cdn/x" rfl

set_option maxRecDepth 100000 in
/-- C3 witness: the byte formula instantiated at index 0 with a concrete
secret and identifier. -/
theorem derive_key_spec_witness :
    (0 : Nat) < 16 ∧
    (getBlowfishKey [1, 2, 3] [52]).getD 0 0 =
      ((toHexBytes (md5bytes [52])).getD 0 0) ^^^
      ((toHexBytes (md5bytes [52])).getD 16 0) ^^^
      (([1, 2, 3] : List Nat).getD 0 0) :=
  ⟨by decide, (derive_key_spec [1, 2, 3] [52]).2.2.2.1 0 (by decide)⟩

end Haberlea
